import Mathlib

/-!
Verification development for the tushareproxy repository: a caching reverse
proxy in front of the tushare data API.

The embedding models, faithfully to the Go source:
* `GenerateKey` (internal/cache/cache.go): SHA-256 of the raw request body,
  rendered as lowercase hex;
* the cache store operations `Get` / `Set` / `Delete` / `Close`
  (internal/cache/cache.go), over an abstract embedded KV engine
  (BadgerDB, an external collaborator) with native per-entry TTL;
* the JSON envelope handling of `encoding/json` for the
  `TushareAPIResult {code int; msg string}` struct (unmarshal and marshal);
* the request handler `DataAPIHandler` (internal/api), with the upstream
  forwarder and the engine faults abstracted as oracles.

Bytes are modelled as lists of naturals (each entry a byte value); machine
integers are modelled as `Nat`/`Int` with explicit `% 2^32` where 32-bit
overflow matters (the SHA-256 compression function).
-/

namespace TushareProxy

/-- A byte string (Go `[]byte`): each element is one byte value `0..255`. -/
abbrev Bytes := List Nat

/-! ## SHA-256 (Go `crypto/sha256`, used by `CacheManager.GenerateKey`)

32-bit words are naturals kept below `2^32` by explicit reduction. -/

/-- 32-bit wrapping addition. -/
def add32 (a b : Nat) : Nat := (a + b) % 4294967296

/-- Rotate a 32-bit word right by `n`. -/
def rotr32 (n x : Nat) : Nat :=
  (x / 2 ^ n + x % 2 ^ n * 2 ^ (32 - n)) % 4294967296

/-- Logical shift right. -/
def shr32 (n x : Nat) : Nat := x / 2 ^ n

/-- 32-bit complement. -/
def not32 (x : Nat) : Nat := Nat.xor x 4294967295

/-- SHA-256 choice function. -/
def shaCh (e f g : Nat) : Nat := Nat.xor (Nat.land e f) (Nat.land (not32 e) g)

/-- SHA-256 majority function. -/
def shaMaj (a b c : Nat) : Nat :=
  Nat.xor (Nat.xor (Nat.land a b) (Nat.land a c)) (Nat.land b c)

def bigSigma0 (x : Nat) : Nat :=
  Nat.xor (Nat.xor (rotr32 2 x) (rotr32 13 x)) (rotr32 22 x)

def bigSigma1 (x : Nat) : Nat :=
  Nat.xor (Nat.xor (rotr32 6 x) (rotr32 11 x)) (rotr32 25 x)

def smallSigma0 (x : Nat) : Nat :=
  Nat.xor (Nat.xor (rotr32 7 x) (rotr32 18 x)) (shr32 3 x)

def smallSigma1 (x : Nat) : Nat :=
  Nat.xor (Nat.xor (rotr32 17 x) (rotr32 19 x)) (shr32 10 x)

/-- The 64 SHA-256 round constants of FIPS 180-4 (the first 32 bits of the
fractional parts of the cube roots of the first 64 primes), in decimal. -/
def sha256K : List Nat :=
  [1116352408, 1899447441, 3049323471, 3921009573,
   961987163, 1508970993, 2453635748, 2870763221,
   3624381080, 310598401, 607225278, 1426881987,
   1925078388, 2162078206, 2614888103, 3248222580,
   3835390401, 4022224774, 264347078, 604807628,
   770255983, 1249150122, 1555081692, 1996064986,
   2554220882, 2821834349, 2952996808, 3210313671,
   3336571891, 3584528711, 113926993, 338241895,
   666307205, 773529912, 1294757372, 1396182291,
   1695183700, 1986661051, 2177026350, 2456956037,
   2730485921, 2820302411, 3259730800, 3345764771,
   3516065817, 3600352804, 4094571909, 275423344,
   430227734, 506948616, 659060556, 883997877,
   958139571, 1322822218, 1537002063, 1747873779,
   1955562222, 2024104815, 2227730452, 2361852424,
   2428436474, 2756734187, 3204031479, 3329325298]

/-- The SHA-256 initial hash value of FIPS 180-4 (the first 32 bits of the
fractional parts of the square roots of the first 8 primes), in decimal. -/
def sha256InitH : List Nat :=
  [1779033703, 3144134277, 1013904242, 2773480762,
   1359893119, 2600822924, 528734635, 1541459225]

/-- One round of the SHA-256 compression function; the state is the list
`[a, b, c, d, e, f, g, h]`, `kw` is the pair (round constant, schedule word). -/
def compressRound (st : List Nat) (kw : Nat × Nat) : List Nat :=
  match st with
  | [a, b, c, d, e, f, g, h] =>
      let t1 := add32 (add32 (add32 h (bigSigma1 e)) (add32 (shaCh e f g) kw.1)) kw.2
      let t2 := add32 (bigSigma0 a) (shaMaj a b c)
      [add32 t1 t2, a, b, c, add32 d t1, e, f, g]
  | other => other

/-- Extend the 16-word block to the 64-word message schedule (`n` more words). -/
def extendSchedule : Nat → List Nat → List Nat
  | 0, w => w
  | n + 1, w =>
      let k := w.length
      let get := fun (i : Nat) => w.getD i 0
      extendSchedule n
        (w ++ [add32 (add32 (smallSigma1 (get (k - 2))) (get (k - 7)))
                 (add32 (smallSigma0 (get (k - 15))) (get (k - 16)))])

/-- Big-endian 32-bit words from bytes (4 bytes each). -/
def bytesToWords : Bytes → List Nat
  | b0 :: b1 :: b2 :: b3 :: rest =>
      (((b0 * 256 + b1) * 256 + b2) * 256 + b3) :: bytesToWords rest
  | _ => []

/-- Process one 64-byte chunk, updating the 8-word hash state. -/
def processChunk (h : List Nat) (chunk : Bytes) : List Nat :=
  let w := extendSchedule 48 (bytesToWords chunk)
  let st := (sha256K.zip w).foldl compressRound h
  (h.zip st).map fun p => add32 p.1 p.2

/-- Split a byte string into 64-byte chunks (fuel-indexed so that the
definition reduces by computation; the fuel is the input length). -/
def toChunksAux : Nat → Bytes → List Bytes
  | 0, _ => []
  | _ + 1, [] => []
  | fuel + 1, b :: rest => ((b :: rest).take 64) :: toChunksAux fuel (rest.drop 63)

/-- Split a byte string into 64-byte chunks. -/
def toChunks (bs : Bytes) : List Bytes := toChunksAux bs.length bs

/-- 8 big-endian bytes of a (64-bit) length value. -/
def beBytes8 (n : Nat) : Bytes :=
  [n / 2 ^ 56 % 256, n / 2 ^ 48 % 256, n / 2 ^ 40 % 256, n / 2 ^ 32 % 256,
   n / 2 ^ 24 % 256, n / 2 ^ 16 % 256, n / 2 ^ 8 % 256, n % 256]

/-- SHA-256 padding: `0x80`, zeros to 56 mod 64, then the bit length. -/
def padMessage (msg : Bytes) : Bytes :=
  let len := msg.length
  msg ++ [0x80] ++ List.replicate ((119 - len % 64) % 64) 0 ++ beBytes8 (8 * len)

/-- The SHA-256 digest of a byte string, as 8 32-bit words. -/
def sha256Words (msg : Bytes) : List Nat :=
  (toChunks (padMessage msg)).foldl processChunk sha256InitH

/-- A 32-bit word as 4 big-endian bytes. -/
def wordToBytesBE (w : Nat) : Bytes :=
  [w / 2 ^ 24 % 256, w / 2 ^ 16 % 256, w / 2 ^ 8 % 256, w % 256]

/-- The SHA-256 digest of a byte string, as 32 bytes
(Go `sha256.Sum256(requestBody)`). -/
def sha256Bytes (msg : Bytes) : Bytes :=
  (sha256Words msg).foldr (fun w acc => wordToBytesBE w ++ acc) []

/-- The sixteen lowercase hex digits, in order. -/
def hexChars : List Char :=
  "0123456789abcdef".toList

/-- The lowercase hex digit for a nibble. -/
def hexDigitChar (n : Nat) : Char := hexChars.getD n '0'

/-- Lowercase hex rendering of a byte string (Go `hex.EncodeToString`). -/
def hexEncodeLower (bs : Bytes) : String :=
  String.mk (bs.foldr (fun b acc => hexDigitChar (b / 16) :: hexDigitChar (b % 16) :: acc) [])

/-- `CacheManager.GenerateKey` (internal/cache/cache.go):
`hex.EncodeToString(sha256.Sum256(requestBody))`. -/
def GenerateKey (requestBody : Bytes) : String :=
  hexEncodeLower (sha256Bytes requestBody)

/-! ## JSON (Go `encoding/json`, as used for the `TushareAPIResult` envelope)

`json.Unmarshal(response, &result)` with
`type TushareAPIResult struct { Code int; Msg string }` first validates the
whole input as JSON, then decodes the top-level value into the struct:
unknown object members are skipped, member names match the field tags
ASCII-case-insensitively, a JSON `null` leaves a field (or the whole struct)
untouched, a non-integral number or a value of the wrong type is a decode
error.  The parser below is byte-level; escaped `\uXXXX` code points are
decoded to UTF-8 (an unpaired surrogate becomes the replacement character,
as in Go; paired surrogates are not recombined, which only affects the
decoded text of exotic strings, never parse success or the `code` field). -/

/-- The parsed `TushareAPIResult` envelope: `code int`, `msg string`
(`msg` kept as raw UTF-8 bytes). -/
structure TushareAPIResult where
  code : Int
  msg : Bytes
deriving Repr, DecidableEq

/-- JSON values, with number tokens kept as (sign, integer-part value,
has-fraction?, has-exponent?) so that decoding into a Go `int` field can be
modelled exactly. -/
inductive Json where
  | null
  | bool (b : Bool)
  | num (neg : Bool) (intPart : Nat) (hasFrac : Bool) (hasExp : Bool)
  | str (s : Bytes)
  | arr (elems : List Json)
  | obj (members : List (Bytes × Json))

/-- JSON whitespace bytes: space, tab, newline, carriage return. -/
def isWsByte (b : Nat) : Bool := b == 0x20 || b == 0x09 || b == 0x0a || b == 0x0d

/-- Drop leading JSON whitespace. -/
def skipWs : Bytes → Bytes
  | [] => []
  | b :: rest => if isWsByte b then skipWs rest else b :: rest

/-- Value of a hex digit byte, if it is one. -/
def hexVal (b : Nat) : Option Nat :=
  if 0x30 ≤ b ∧ b ≤ 0x39 then some (b - 0x30)
  else if 0x61 ≤ b ∧ b ≤ 0x66 then some (b - 0x61 + 10)
  else if 0x41 ≤ b ∧ b ≤ 0x46 then some (b - 0x41 + 10)
  else none

/-- UTF-8 encoding of a code point. -/
def utf8EncodeCp (cp : Nat) : Bytes :=
  if cp < 0x80 then [cp]
  else if cp < 0x800 then [0xc0 + cp / 0x40, 0x80 + cp % 0x40]
  else if cp < 0x10000 then
    [0xe0 + cp / 0x1000, 0x80 + cp / 0x40 % 0x40, 0x80 + cp % 0x40]
  else
    [0xf0 + cp / 0x40000, 0x80 + cp / 0x1000 % 0x40, 0x80 + cp / 0x40 % 0x40,
     0x80 + cp % 0x40]

/-- Bytes contributed by an escaped `\uXXXX` code point: a surrogate half
becomes U+FFFD (as Go does for unpaired surrogates), otherwise its UTF-8. -/
def ucharBytes (cp : Nat) : Bytes :=
  if 0xd800 ≤ cp ∧ cp < 0xe000 then [0xef, 0xbf, 0xbd] else utf8EncodeCp cp

/-- The byte denoted by a single-character escape `\e`, if valid. -/
def escByte (e : Nat) : Option Nat :=
  if e = 0x22 then some 0x22        -- \"
  else if e = 0x5c then some 0x5c   -- backslash
  else if e = 0x2f then some 0x2f   -- \/
  else if e = 0x62 then some 0x08   -- \b
  else if e = 0x66 then some 0x0c   -- \f
  else if e = 0x6e then some 0x0a   -- \n
  else if e = 0x72 then some 0x0d   -- \r
  else if e = 0x74 then some 0x09   -- \t
  else none

/-- Parse the body of a JSON string after the opening quote; returns the
decoded content bytes and the remaining input after the closing quote.
Raw control bytes are rejected, bytes `0x20..` pass through. -/
def parseStringBody : Bytes → Option (Bytes × Bytes)
  | [] => none
  | 0x22 :: rest => some ([], rest)
  | 0x5c :: 0x75 :: h1 :: h2 :: h3 :: h4 :: rest =>
      match hexVal h1, hexVal h2, hexVal h3, hexVal h4, parseStringBody rest with
      | some d1, some d2, some d3, some d4, some (out, rem) =>
          some (ucharBytes (((d1 * 16 + d2) * 16 + d3) * 16 + d4) ++ out, rem)
      | _, _, _, _, _ => none
  | 0x5c :: e :: rest =>
      match escByte e, parseStringBody rest with
      | some b, some (out, rem) => some (b :: out, rem)
      | _, _ => none
  | b :: rest =>
      if b < 0x20 then none
      else
        match parseStringBody rest with
        | some (out, rem) => some (b :: out, rem)
        | none => none

/-- Take leading decimal-digit bytes. -/
def takeDigits : Bytes → List Nat × Bytes
  | [] => ([], [])
  | b :: rest =>
      if 0x30 ≤ b ∧ b ≤ 0x39 then
        let p := takeDigits rest
        (b :: p.1, p.2)
      else ([], b :: rest)

/-- Numeric value of a list of decimal-digit bytes. -/
def digitsVal (ds : List Nat) : Nat :=
  ds.foldl (fun a b => a * 10 + (b - 0x30)) 0

/-- Parse an optional exponent part after the mantissa. -/
def parseExpDigits (neg : Bool) (v : Nat) (hasFrac : Bool) (input : Bytes) :
    Option (Json × Bytes) :=
  let r :=
    match input with
    | 0x2b :: r => r
    | 0x2d :: r => r
    | r => r
  match takeDigits r with
  | ([], _) => none
  | (_, r2) => some (.num neg v hasFrac true, r2)

/-- Parse what follows the mantissa digits: optional fraction and exponent. -/
def parseNumSuffix (neg : Bool) (v : Nat) (hasFrac : Bool) (input : Bytes) :
    Option (Json × Bytes) :=
  match input with
  | 0x65 :: r => parseExpDigits neg v hasFrac r
  | 0x45 :: r => parseExpDigits neg v hasFrac r
  | r => some (.num neg v hasFrac false, r)

/-- Parse a JSON number starting at its first digit (sign already consumed);
JSON forbids leading zeros. -/
def parseNumberTail (neg : Bool) (input : Bytes) : Option (Json × Bytes) :=
  match takeDigits input with
  | ([], _) => none
  | (ds, rest) =>
      if 1 < ds.length ∧ ds.headD 0 = 0x30 then none
      else
        match rest with
        | 0x2e :: r2 =>
            match takeDigits r2 with
            | ([], _) => none
            | (_, r3) => parseNumSuffix neg (digitsVal ds) true r3
        | r2 => parseNumSuffix neg (digitsVal ds) false r2

mutual

/-- Parse one JSON value (after skipping leading whitespace); fuel-indexed so
that the definition is structurally recursive and reduces by computation. -/
def parseValue : Nat → Bytes → Option (Json × Bytes)
  | 0, _ => none
  | fuel + 1, input =>
      match skipWs input with
      | 0x6e :: 0x75 :: 0x6c :: 0x6c :: rest => some (.null, rest)
      | 0x74 :: 0x72 :: 0x75 :: 0x65 :: rest => some (.bool true, rest)
      | 0x66 :: 0x61 :: 0x6c :: 0x73 :: 0x65 :: rest => some (.bool false, rest)
      | 0x22 :: rest =>
          match parseStringBody rest with
          | some (s, r) => some (.str s, r)
          | none => none
      | 0x5b :: rest =>
          (match skipWs rest with
           | 0x5d :: r2 => some (.arr [], r2)
           | r2 =>
               match parseElems fuel r2 with
               | some (xs, r3) => some (.arr xs, r3)
               | none => none)
      | 0x7b :: rest =>
          (match skipWs rest with
           | 0x7d :: r2 => some (.obj [], r2)
           | r2 =>
               match parseMembers fuel r2 with
               | some (ms, r3) => some (.obj ms, r3)
               | none => none)
      | 0x2d :: rest => parseNumberTail true rest
      | b :: rest =>
          if 0x30 ≤ b ∧ b ≤ 0x39 then parseNumberTail false (b :: rest) else none
      | [] => none

/-- Parse the comma-separated elements of a non-empty JSON array, through the
closing bracket. -/
def parseElems : Nat → Bytes → Option (List Json × Bytes)
  | 0, _ => none
  | fuel + 1, input =>
      match parseValue fuel input with
      | none => none
      | some (v, r1) =>
          match skipWs r1 with
          | 0x2c :: r2 =>
              (match parseElems fuel r2 with
               | some (vs, r3) => some (v :: vs, r3)
               | none => none)
          | 0x5d :: r2 => some ([v], r2)
          | _ => none

/-- Parse the members of a non-empty JSON object, through the closing brace. -/
def parseMembers : Nat → Bytes → Option (List (Bytes × Json) × Bytes)
  | 0, _ => none
  | fuel + 1, input =>
      match skipWs input with
      | 0x22 :: rest =>
          (match parseStringBody rest with
           | none => none
           | some (k, r1) =>
               match skipWs r1 with
               | 0x3a :: r2 =>
                   (match parseValue fuel r2 with
                    | none => none
                    | some (v, r3) =>
                        match skipWs r3 with
                        | 0x2c :: r4 =>
                            (match parseMembers fuel r4 with
                             | some (ms, r5) => some ((k, v) :: ms, r5)
                             | none => none)
                        | 0x7d :: r4 => some ([(k, v)], r4)
                        | _ => none)
               | _ => none)
      | _ => none

end

/-- Parse the first JSON value of a byte string (with ample fuel: every
parsing step consumes input, so `2 * length + 8` steps always suffice). -/
def parseJson (b : Bytes) : Option (Json × Bytes) :=
  parseValue (2 * b.length + 8) b

/-- ASCII-lowercase a byte string (Go's `asciiEqualFold` name matching:
ASCII letters fold, every other byte must match exactly). -/
def bytesLowerAscii (s : Bytes) : Bytes :=
  s.map fun b => if 0x41 ≤ b ∧ b ≤ 0x5a then b + 0x20 else b

/-- Case-insensitive (ASCII) member-name match against a field tag. -/
def keyMatches (k field : Bytes) : Bool :=
  bytesLowerAscii k == bytesLowerAscii field

/-- The bytes of the field tag "code". -/
def codeKey : Bytes := [0x63, 0x6f, 0x64, 0x65]

/-- The bytes of the field tag "msg". -/
def msgKey : Bytes := [0x6d, 0x73, 0x67]

/-- Apply one object member to the struct being decoded: `null` leaves the
field untouched, a matching value sets it, a mismatched type is an error,
unknown members are skipped.  For duplicate members the last one wins, as in
Go. -/
def applyMember (r : TushareAPIResult) (k : Bytes) (v : Json) :
    Option TushareAPIResult :=
  if keyMatches k codeKey then
    match v with
    | .null => some r
    | .num neg ip false false =>
        some { r with code := if neg then -(Int.ofNat ip) else Int.ofNat ip }
    | _ => none
  else if keyMatches k msgKey then
    match v with
    | .null => some r
    | .str s => some { r with msg := s }
    | _ => none
  else some r

/-- Fold all object members into the struct. -/
def applyMembers (r : TushareAPIResult) :
    List (Bytes × Json) → Option TushareAPIResult
  | [] => some r
  | (k, v) :: rest =>
      match applyMember r k v with
      | none => none
      | some r2 => applyMembers r2 rest

/-- Decode a parsed top-level JSON value into `TushareAPIResult`
(zero value `{0, ""}`): `null` is a no-op success, an object is folded
member-by-member, anything else is a type error. -/
def decodeTushareResult : Json → Option TushareAPIResult
  | .null => some ⟨0, []⟩
  | .obj ms => applyMembers ⟨0, []⟩ ms
  | _ => none

/-- `json.Unmarshal(response, &result)` for `TushareAPIResult`: the whole
input must be one JSON value (plus whitespace), then the value is decoded. -/
def unmarshalTushareAPIResult (b : Bytes) : Option TushareAPIResult :=
  match parseJson b with
  | none => none
  | some (v, rest) => if skipWs rest = [] then decodeTushareResult v else none

/-- Decimal bytes of an integer (Go `encoding/json` number output). -/
def intToDecimalBytes (n : Int) : Bytes :=
  (toString n).toList.map Char.toNat

/-- One lowercase hex digit as an ASCII byte. -/
def hexDigitByte (n : Nat) : Nat := (hexDigitChar n).toNat

/-- Go `encoding/json` string escaping: quote, backslash, control bytes
(with `\n`, `\r`, `\t` special-cased), the HTML-sensitive `<`, `>`, `&`,
and U+2028/U+2029; all other bytes pass through. -/
def jsonEscapeBytes : Bytes → Bytes
  | [] => []
  | 0xe2 :: 0x80 :: 0xa8 :: rest =>
      [0x5c, 0x75, 0x32, 0x30, 0x32, 0x38] ++ jsonEscapeBytes rest
  | 0xe2 :: 0x80 :: 0xa9 :: rest =>
      [0x5c, 0x75, 0x32, 0x30, 0x32, 0x39] ++ jsonEscapeBytes rest
  | b :: rest =>
      (if b = 0x22 then [0x5c, 0x22]
       else if b = 0x5c then [0x5c, 0x5c]
       else if b = 0x0a then [0x5c, 0x6e]
       else if b = 0x0d then [0x5c, 0x72]
       else if b = 0x09 then [0x5c, 0x74]
       else if b < 0x20 ∨ b = 0x3c ∨ b = 0x3e ∨ b = 0x26 then
         [0x5c, 0x75, 0x30, 0x30, hexDigitByte (b / 16), hexDigitByte (b % 16)]
       else [b]) ++ jsonEscapeBytes rest

/-- `json.Marshal(TushareAPIResult{Code: code, Msg: msg})`: the bytes
of the envelope with the fields in struct order and lowercase tags. -/
def marshalTushareAPIResult (code : Int) (msg : Bytes) : Bytes :=
  [0x7b, 0x22] ++ codeKey ++ [0x22, 0x3a] ++ intToDecimalBytes code ++
    [0x2c, 0x22] ++ msgKey ++ [0x22, 0x3a, 0x22] ++ jsonEscapeBytes msg ++
    [0x22, 0x7d]

/-- UTF-8 bytes of a Lean string literal (used to spell the Go string
constants of the proxy's log/error messages). -/
def utf8Encode (s : String) : Bytes :=
  s.toList.foldr (fun c acc => utf8EncodeCp c.toNat ++ acc) []

/-- The bytes of the Scenario B upstream body
`\x7b"code":40001,"msg":"token invalid"\x7d`. -/
def scenarioBBody : Bytes :=
  [0x7b, 0x22] ++ codeKey ++ [0x22, 0x3a, 0x34, 0x30, 0x30, 0x30, 0x31, 0x2c,
   0x22] ++ msgKey ++ [0x22, 0x3a, 0x22] ++ utf8Encode "token invalid" ++
  [0x22, 0x7d]

/-! ## Cache store (internal/cache/cache.go over BadgerDB)

The embedded KV engine (BadgerDB) is an external collaborator; it is
modelled as an association list of records plus fault oracles for the I/O
errors its transactions can return.  Time is in seconds (Unix timestamps),
`ttl` is the configured retention in seconds. -/

/-- `CacheEntry` (internal/cache/cache.go). -/
structure CacheEntry where
  requestBody : Bytes
  responseBody : Bytes
  statusCode : Int
  timestamp : Int
deriving Repr, DecidableEq

/-- One record as persisted by the engine: the serialized entry plus the
engine-native expiry instant attached by `WithTTL`. -/
structure StoredRecord where
  entry : CacheEntry
  expiresAt : Int
deriving Repr, DecidableEq

/-- The engine's keyspace. -/
abbrev Store := List (String × StoredRecord)

def storeLookup : Store → String → Option StoredRecord
  | [], _ => none
  | (k, r) :: rest, key => if k = key then some r else storeLookup rest key

def storeErase : Store → String → Store
  | [], _ => []
  | (k, r) :: rest, key =>
      if k = key then storeErase rest key else (k, r) :: storeErase rest key

/-- Unconditional overwrite of the record at a key. -/
def storeInsert (s : Store) (key : String) (r : StoredRecord) : Store :=
  (key, r) :: storeErase s key

/-- Outcome of the engine-level point read inside `CacheManager.Get`. -/
inductive EngineGetOutcome where
  | found (r : StoredRecord)
  | notFound
  | ioError
deriving Repr, DecidableEq

/-- Modelled from the spec: the engine's native per-entry TTL (§4.2, §6 —
"an engine-native TTL attached equal to the configured retention window").
BadgerDB's point reads treat a record whose expiry instant has been reached
(`expiresAt ≤ now`) as deleted, independently of physical reclamation; a
read can also fail with an I/O error (`fault`), and unmarshalling a corrupt
value is folded into the same fault oracle. -/
def engineGet (fault : Bool) (now : Int) (s : Store) (key : String) :
    EngineGetOutcome :=
  if fault then .ioError
  else
    match storeLookup s key with
    | none => .notFound
    | some r => if r.expiresAt ≤ now then .notFound else .found r

/-- The four ways `CacheManager.Get` can come out; the Go function returns
`(entry, true)` exactly in the `hit` case and `(nil, false)` otherwise. -/
inductive GetResult where
  | hit (e : CacheEntry)
  | missNotFound
  | missIOError
  | missExpired
deriving Repr, DecidableEq

/-- Whether a `GetResult` is the found case. -/
def GetResult.isHit : GetResult → Bool
  | .hit _ => true
  | _ => false

/-- `CacheManager.Get` (cache.go:69-101): an engine error or absence is a
miss; a record found by the engine but with `now - entry.timestamp > ttl`
is treated as logically expired — the stale key is deleted and the read
reports not-found; otherwise the entry is returned.  The second component
is the store after the call (the expired path deletes the key). -/
def CM_Get (ttl : Int) (fault : Bool) (now : Int) (s : Store) (key : String) :
    GetResult × Store :=
  match engineGet fault now s key with
  | .ioError => (.missIOError, s)
  | .notFound => (.missNotFound, s)
  | .found r =>
      if now - r.entry.timestamp > ttl then (.missExpired, storeErase s key)
      else (.hit r.entry, s)

/-- `CacheManager.Set` (cache.go:104-133): serializes the entry with
`timestamp = now` and writes it with the engine TTL, overwriting any
existing record.  The Bool is success; a failed engine write (`fault`)
returns an error and leaves the store unchanged. -/
def CM_Set (ttl : Int) (fault : Bool) (now : Int) (s : Store) (key : String)
    (requestBody responseBody : Bytes) (statusCode : Int) : Bool × Store :=
  if fault then (false, s)
  else
    (true,
     storeInsert s key
       { entry := { requestBody := requestBody, responseBody := responseBody,
                    statusCode := statusCode, timestamp := now },
         expiresAt := now + ttl })

/-- Outcome of the engine-level delete inside `CacheManager.Delete`. -/
inductive EngineDeleteOutcome where
  | ok
  | keyNotFound
  | ioError
deriving Repr, DecidableEq

/-- `CacheManager.Delete` (cache.go:136-147): an engine `ErrKeyNotFound` is
filtered out (`err != nil && err != badger.ErrKeyNotFound`), so only a real
I/O error is reported; the Bool is success. -/
def CM_Delete (engineResult : EngineDeleteOutcome) (s : Store) (key : String) :
    Bool × Store :=
  match engineResult with
  | .ok => (true, storeErase s key)
  | .keyNotFound => (true, s)
  | .ioError => (false, s)

/-- `CacheManager.Close` (cache.go:54-60): `if cm.db != nil` close it, else
return nil.  The handle, when present, carries the engine close outcome. -/
def CM_Close (db : Option Bool) : Bool :=
  match db with
  | none => true
  | some closeOk => closeOk

/-! ## Request handler (internal/api, `DataAPIHandler`)

The upstream forwarder `forwardRawRequestToTushareAPI` returns only a body
and a status code (`([]byte, int, error)`); its transport-level failure is
the `none` oracle value.  The global `cacheManager` is `none` when caching
is disabled in configuration (main.go only calls `api.SetCacheManager` when
`cfg.Cache.Enabled`). -/

/-- The Go string constant of the method-not-allowed message. -/
def msgMethodNotAllowed : Bytes := utf8Encode "只支持POST方法"

/-- The Go string constant of the unreadable-body message. -/
def msgReadBodyFailed : Bytes := utf8Encode "读取请求体失败"

/-- The Go string constant of the forwarding-failure message. -/
def msgForwardFailed : Bytes := utf8Encode "请求tushare API失败"

/-- `sendErrorResponse` (cache.go:365-375): the transport status written is
always 200, the proxy's internal status code goes into the envelope's
`code` and the message into `msg`. -/
def sendErrorResponse (message : Bytes) (statusCode : Int) : Int × Bytes :=
  (200, marshalTushareAPIResult statusCode message)

/-- Everything one call of `DataAPIHandler` does that the claims talk
about: the response (status, body, headers), the store afterwards, and a
trace of the cache-key computation, store reads/writes/deletes (keys), and
upstream calls. -/
structure HandlerOut where
  status : Int
  body : Bytes
  headers : List (String × String)
  store : Store
  computedKey : Option String
  storeGets : List String
  storeSets : List String
  storeDeletes : List String
  upstreamCalls : Nat
  fromCache : Bool
deriving Repr, DecidableEq

/-- The single header the handler sets (`w.Header().Set` at cache.go:231). -/
def contentTypeHeaders : List (String × String) :=
  [("Content-Type", "application/json")]

/-- An output with the given final store, no trace, and the headers the
handler always sets. -/
def baseOut (st : Store) : HandlerOut :=
  { status := 0, body := [], headers := contentTypeHeaders, store := st,
    computedKey := none, storeGets := [], storeSets := [], storeDeletes := [],
    upstreamCalls := 0, fromCache := false }

/-- `shouldCache` evaluation (cache.go:284-300): transport status exactly
`http.StatusOK`, non-empty body, body unmarshals, `result.Code == 0`. -/
def shouldCacheResponse (statusCode : Int) (response : Bytes) : Bool :=
  if statusCode = 200 ∧ response.length ≠ 0 then
    match unmarshalTushareAPIResult response with
    | some r => r.code == 0
    | none => false
  else false

/-- `DataAPIHandler` (cache.go:227-323).

* `cache`: `some (ttl, store)` when the global `cacheManager` is set
  (caching enabled), `none` otherwise;
* `getFault` / `setFault`: the engine-fault oracles for the store read and
  write this request performs;
* `upstream`: what `forwardRawRequestToTushareAPI` would return —
  `some (responseBody, statusCode)` or `none` for a transport failure;
* `now`: the request time (seconds);
* `method`, `bodyResult`: the request method and the result of reading the
  request body (`none` = read error). -/
def DataAPIHandler (cache : Option (Int × Store)) (getFault setFault : Bool)
    (upstream : Option (Bytes × Int)) (now : Int)
    (method : String) (bodyResult : Option Bytes) : HandlerOut :=
  let st0 : Store := match cache with | none => [] | some (_, s) => s
  if method = "POST" then
    match bodyResult with
    | none =>
        { baseOut st0 with
          status := (sendErrorResponse msgReadBodyFailed 400).1,
          body := (sendErrorResponse msgReadBodyFailed 400).2 }
    | some body =>
        match cache with
        | none =>
            -- caching disabled: no key, no store operations, forward always
            (match upstream with
             | none =>
                 { baseOut [] with
                   status := (sendErrorResponse msgForwardFailed 500).1,
                   body := (sendErrorResponse msgForwardFailed 500).2,
                   upstreamCalls := 1 }
             | some (resp, sc) =>
                 { baseOut [] with status := sc, body := resp, upstreamCalls := 1 })
        | some (ttl, s) =>
            let key := GenerateKey body
            match CM_Get ttl getFault now s key with
            | (.hit e, s1) =>
                { baseOut s1 with
                  status := e.statusCode, body := e.responseBody,
                  computedKey := some key, storeGets := [key], fromCache := true }
            | (res, s1) =>
                let dels : List String :=
                  match res with | .missExpired => [key] | _ => []
                match upstream with
                | none =>
                    { baseOut s1 with
                      status := (sendErrorResponse msgForwardFailed 500).1,
                      body := (sendErrorResponse msgForwardFailed 500).2,
                      computedKey := some key, storeGets := [key],
                      storeDeletes := dels, upstreamCalls := 1 }
                | some (resp, sc) =>
                    if shouldCacheResponse sc resp then
                      { baseOut (CM_Set ttl setFault now s1 key body resp sc).2 with
                        status := sc, body := resp,
                        computedKey := some key, storeGets := [key],
                        storeSets := [key], storeDeletes := dels,
                        upstreamCalls := 1 }
                    else
                      { baseOut s1 with
                        status := sc, body := resp,
                        computedKey := some key, storeGets := [key],
                        storeDeletes := dels, upstreamCalls := 1 }
  else
    { baseOut st0 with
      status := (sendErrorResponse msgMethodNotAllowed 405).1,
      body := (sendErrorResponse msgMethodNotAllowed 405).2 }

/-- The wire-visible part of a handler outcome: transport status and body. -/
def responseOf (o : HandlerOut) : Int × Bytes := (o.status, o.body)

/-- A record whose engine expiry lies ahead but whose timestamp is stale
with respect to the application-level TTL check (witness material for C3). -/
def staleRecord : StoredRecord :=
  { entry := { requestBody := [], responseBody := [], statusCode := 200,
               timestamp := 0 },
    expiresAt := 100 }

/-- The keys deleted during the get step of a request, per get result
(the logically-expired path deletes the stale key). -/
def delsOf (key : String) : GetResult → List String
  | .missExpired => [key]
  | _ => []

/-- The bytes of `\x7b"code":0\x7d`. -/
def code0Body : Bytes := [0x7b, 0x22] ++ codeKey ++ [0x22, 0x3a, 0x30, 0x7d]

/-- A top-level JSON value with no member (ASCII-case-insensitively) named
"code": the literal `null`, or an object none of whose members match. -/
def jsonLacksCodeMember : Json → Bool
  | .null => true
  | .obj ms => ms.all fun kv => !(keyMatches kv.1 codeKey)
  | _ => false

/-! ## Supporting lemmas -/

/-- Validation of the SHA-256 model against the FIPS 180-4 test vector for the
empty message (this is exactly what Go computes for an empty request body). -/
theorem generateKey_empty_vector :
    GenerateKey [] = "e3b0c44298fc1c149afbf4c8996fb92427ae41e4649b934ca495991b7852b855" := by
  decide

/-- Validation of the SHA-256 model against the FIPS 180-4 test vector for
the three-byte message "abc". -/
theorem generateKey_abc_vector :
    GenerateKey [0x61, 0x62, 0x63] =
      "ba7816bf8f01cfea414140de5dae2223b00361a396177a9cb410ff61f20015ad" := by
  decide

/-- Validation of the JSON model: the envelope upstream returns in
Scenario B decodes to its `code`/`msg`, and the marshaller reproduces
its bytes. -/
theorem unmarshal_scenarioB_vector :
    unmarshalTushareAPIResult scenarioBBody =
        some ⟨40001, utf8Encode "token invalid"⟩ ∧
      marshalTushareAPIResult 40001 (utf8Encode "token invalid") = scenarioBBody := by
  decide


theorem compressRound_length (st : List Nat) (kw : Nat × Nat)
    (h : st.length = 8) : (compressRound st kw).length = 8 := by
  rcases st with _ | ⟨a, _ | ⟨b, _ | ⟨c, _ | ⟨d, _ | ⟨e, _ | ⟨f, _ | ⟨g, _ | ⟨hh, _ | ⟨i, t⟩⟩⟩⟩⟩⟩⟩⟩⟩ <;>
    simp_all [compressRound]

theorem foldl_compressRound_length (l : List (Nat × Nat)) (st : List Nat)
    (h : st.length = 8) : (l.foldl compressRound st).length = 8 := by
  induction l generalizing st with
  | nil => simpa using h
  | cons p t ih => exact ih _ (compressRound_length _ _ h)

theorem processChunk_length (h : List Nat) (c : Bytes) (hh : h.length = 8) :
    (processChunk h c).length = 8 := by
  have h2 := foldl_compressRound_length
    (sha256K.zip (extendSchedule 48 (bytesToWords c))) h hh
  simp [processChunk, hh, h2]

theorem sha256Words_length (msg : Bytes) : (sha256Words msg).length = 8 := by
  have key : ∀ (cs : List Bytes) (h : List Nat), h.length = 8 →
      (cs.foldl processChunk h).length = 8 := by
    intro cs
    induction cs with
    | nil => intro h hh; simpa using hh
    | cons c t ih => intro h hh; exact ih _ (processChunk_length _ _ hh)
  exact key _ _ (by decide)

theorem foldr_wordBytes_length (l : List Nat) :
    (l.foldr (fun w acc => wordToBytesBE w ++ acc) []).length = 4 * l.length := by
  induction l with
  | nil => rfl
  | cons w t ih =>
      rw [List.foldr_cons, List.length_append, ih]
      simp [wordToBytesBE]
      omega

theorem foldr_wordBytes_lt (l : List Nat) :
    ∀ b ∈ l.foldr (fun w acc => wordToBytesBE w ++ acc) [], b < 256 := by
  induction l with
  | nil => simp
  | cons w t ih =>
      intro b hb
      simp only [List.foldr_cons, wordToBytesBE, List.cons_append, List.nil_append,
        List.mem_cons] at hb
      rcases hb with h | h | h | h | h
      · subst h; exact Nat.mod_lt _ (by norm_num)
      · subst h; exact Nat.mod_lt _ (by norm_num)
      · subst h; exact Nat.mod_lt _ (by norm_num)
      · subst h; exact Nat.mod_lt _ (by norm_num)
      · exact ih b h

theorem sha256Bytes_length (msg : Bytes) : (sha256Bytes msg).length = 32 := by
  unfold sha256Bytes
  rw [foldr_wordBytes_length, sha256Words_length]

theorem sha256Bytes_lt (msg : Bytes) : ∀ b ∈ sha256Bytes msg, b < 256 :=
  foldr_wordBytes_lt _

theorem hexDigitChar_mem : ∀ n, n < 16 → hexDigitChar n ∈ hexChars := by
  decide

theorem hexFold_length (bs : Bytes) :
    (bs.foldr (fun b acc =>
      hexDigitChar (b / 16) :: hexDigitChar (b % 16) :: acc) []).length =
      2 * bs.length := by
  induction bs with
  | nil => rfl
  | cons b t ih => simp [ih]; omega

theorem hexFold_mem (bs : Bytes) (hlt : ∀ b ∈ bs, b < 256) :
    ∀ c ∈ bs.foldr (fun b acc =>
      hexDigitChar (b / 16) :: hexDigitChar (b % 16) :: acc) [], c ∈ hexChars := by
  induction bs with
  | nil => simp
  | cons b t ih =>
      intro c hc
      simp only [List.foldr_cons, List.mem_cons] at hc
      have hb : b < 256 := hlt b (List.mem_cons_self b t)
      rcases hc with h | h | h
      · subst h
        exact hexDigitChar_mem _ ((Nat.div_lt_iff_lt_mul (by norm_num)).mpr hb)
      · subst h
        exact hexDigitChar_mem _ (Nat.mod_lt _ (by norm_num))
      · exact ih (fun x hx => hlt x (List.mem_cons_of_mem _ hx)) c h

theorem storeLookup_insert_self (s : Store) (key : String) (r : StoredRecord) :
    storeLookup (storeInsert s key r) key = some r := by
  simp [storeInsert, storeLookup]

/-! ## Claims -/

/-- C5 — The fingerprint function is deterministic and pure: byte-identical
payloads always give the same key, which is the SHA-256 digest of the exact
raw bytes rendered as lowercase hex, a 64-hex-character string; the hash
input is the raw payload itself (no normalization). -/
theorem claim5_fingerprint_sha256_lowercase_hex :
    (∀ p q : Bytes, p = q → GenerateKey p = GenerateKey q) ∧
    (∀ p : Bytes, GenerateKey p = hexEncodeLower (sha256Bytes p)) ∧
    (∀ p : Bytes, (GenerateKey p).length = 64 ∧
      ∀ c ∈ (GenerateKey p).data, c ∈ hexChars) := by
  refine ⟨fun p q h => by rw [h], fun p => rfl, fun p => ⟨?_, ?_⟩⟩
  · show (hexEncodeLower (sha256Bytes p)).length = 64
    have h1 : (hexEncodeLower (sha256Bytes p)).length =
        2 * (sha256Bytes p).length := by
      simp [hexEncodeLower, String.length]
      exact hexFold_length _
    rw [h1, sha256Bytes_length]
  · intro c hc
    exact hexFold_mem _ (sha256Bytes_lt p) c hc

/-- Witness for C5 at the payload "abc": determinism and the 64-character
length, instantiated concretely. -/
theorem claim5_witness :
    GenerateKey [0x61, 0x62, 0x63] = GenerateKey [0x61, 0x62, 0x63] ∧
      (GenerateKey [0x61, 0x62, 0x63]).length = 64 :=
  ⟨claim5_fingerprint_sha256_lowercase_hex.1 _ _ rfl,
   (claim5_fingerprint_sha256_lowercase_hex.2.2 _).1⟩

/-- C8 — `Delete` returns success for every key whether or not an entry is
present (an engine `ErrKeyNotFound` is filtered out; only a real engine
I/O fault is an error), and `Close` on a nil underlying store is a no-op
returning no error. -/
theorem claim8_idempotent_delete_close :
    (∀ (o : EngineDeleteOutcome) (s : Store) (key : String),
        o ≠ EngineDeleteOutcome.ioError → (CM_Delete o s key).1 = true) ∧
    CM_Close none = true := by
  constructor
  · intro o s key h
    cases o with
    | ok => rfl
    | keyNotFound => rfl
    | ioError => exact absurd rfl h
  · rfl

/-- Witness for C8: deleting an absent key from an empty store succeeds
(engine reports the key missing), and closing a nil store succeeds. -/
theorem claim8_witness :
    (CM_Delete EngineDeleteOutcome.keyNotFound [] "k").1 = true ∧
      CM_Close none = true :=
  ⟨claim8_idempotent_delete_close.1 EngineDeleteOutcome.keyNotFound [] "k"
     (by decide),
   claim8_idempotent_delete_close.2⟩

/-- C3 — An entry written at time `T` with TTL `D` is reported absent by
`Get` at every `now ≥ T + D`, even though the record is still physically in
the store (first conjunct: the lookup happens on the unreclaimed store); and
whenever the application-level expiry path is taken (the engine returned a
record with `now - timestamp > ttl`), the stale key is deleted and the read
reports not-found (second conjunct). -/
theorem claim3_expiry :
    (∀ (s : Store) (ttl T now : Int) (key : String) (req resp : Bytes)
        (sc : Int) (gf : Bool), T + ttl ≤ now →
        ((CM_Get ttl gf now (CM_Set ttl false T s key req resp sc).2 key).1).isHit
          = false) ∧
    (∀ (s : Store) (ttl now : Int) (key : String) (r : StoredRecord),
        storeLookup s key = some r → now < r.expiresAt →
        now - r.entry.timestamp > ttl →
        CM_Get ttl false now s key = (.missExpired, storeErase s key)) := by
  constructor
  · intro s ttl T now key req resp sc gf h
    cases gf with
    | true => rfl
    | false =>
        simp [CM_Set, CM_Get, engineGet, storeLookup_insert_self, h,
          GetResult.isHit]
  · intro s ttl now key r hl hlt hexp
    have hne : ¬ r.expiresAt ≤ now := not_le.mpr hlt
    simp [CM_Get, engineGet, hl, hne, hexp]

/-- Witness for C3: a record set at `T = 0` with `ttl = 5` is absent at the
boundary instant `now = 5` although still physically stored; and a record
the engine still serves at `now = 6` whose timestamp is `6 - 0 > 5` stale is
deleted and reported missing. -/
theorem claim3_witness :
    ((CM_Get 5 false 5 (CM_Set 5 false 0 [] "k" [] [0x31] 200).2 "k").1).isHit
        = false ∧
      CM_Get 5 false 6 [("k", staleRecord)] "k" =
        (.missExpired, storeErase [("k", staleRecord)] "k") :=
  ⟨claim3_expiry.1 [] 5 0 5 "k" [] [0x31] 200 false (by decide),
   claim3_expiry.2 [("k", staleRecord)] 5 6 "k" staleRecord (by decide)
     (by decide) (by decide)⟩

/-- C10 — The handler's interface to the forwarder and the cache carries
only a body and a status code (`forwardRawRequestToTushareAPI` returns
`([]byte, int, error)`, a cache entry stores only body/status), so no
upstream header can propagate; and on every response — cached, live, or
proxy-generated error — the only header the proxy sets is
`Content-Type: application/json`, set before anything else. -/
theorem claim10_content_type_header_only :
    ∀ (cache : Option (Int × Store)) (gf sf : Bool)
      (up : Option (Bytes × Int)) (now : Int) (method : String)
      (bodyResult : Option Bytes),
      (DataAPIHandler cache gf sf up now method bodyResult).headers =
        [("Content-Type", "application/json")] := by
  intro cache gf sf up now method bodyResult
  simp only [DataAPIHandler]
  repeat' split
  all_goals first | rfl | simp_all

/-- C4 — Every proxy-internal failure is reported with transport status 200
and the `{code, msg}` envelope carrying the proxy's internal status code:
405 for a non-POST method, 400 for an unreadable body, 500 for a
forwarding failure (the forwarding-failure conjunct applies whenever the
request was not served from cache, i.e. the forwarder was actually
consulted). -/
theorem claim4_proxy_errors_status_200_envelope :
    (∀ (cache : Option (Int × Store)) (gf sf : Bool)
        (up : Option (Bytes × Int)) (now : Int) (method : String)
        (bodyResult : Option Bytes), method ≠ "POST" →
        responseOf (DataAPIHandler cache gf sf up now method bodyResult) =
          (200, marshalTushareAPIResult 405 msgMethodNotAllowed)) ∧
    (∀ (cache : Option (Int × Store)) (gf sf : Bool)
        (up : Option (Bytes × Int)) (now : Int),
        responseOf (DataAPIHandler cache gf sf up now "POST" none) =
          (200, marshalTushareAPIResult 400 msgReadBodyFailed)) ∧
    (∀ (cache : Option (Int × Store)) (gf sf : Bool) (now : Int) (body : Bytes),
        (DataAPIHandler cache gf sf none now "POST" (some body)).fromCache
            = false →
        responseOf (DataAPIHandler cache gf sf none now "POST" (some body)) =
          (200, marshalTushareAPIResult 500 msgForwardFailed)) := by
  refine ⟨?_, ?_, ?_⟩
  · intro cache gf sf up now method bodyResult hm
    simp [DataAPIHandler, hm, responseOf, baseOut, sendErrorResponse]
  · intro cache gf sf up now
    rcases cache with _ | ⟨ttl, s⟩ <;> rfl
  · intro cache gf sf now body hfc
    rcases cache with _ | ⟨ttl, s⟩
    · rfl
    · rcases hres : CM_Get ttl gf now s (GenerateKey body) with ⟨res, s1⟩
      cases res with
      | hit e =>
          exfalso
          simp [DataAPIHandler, hres] at hfc
      | missNotFound =>
          simp [DataAPIHandler, hres, responseOf, baseOut, sendErrorResponse]
      | missIOError =>
          simp [DataAPIHandler, hres, responseOf, baseOut, sendErrorResponse]
      | missExpired =>
          simp [DataAPIHandler, hres, responseOf, baseOut, sendErrorResponse]

/-- Witness for C4: a GET request is answered with transport status 200 and
the envelope `\x7b"code":405,"msg":"只支持POST方法"\x7d`; decoding that body
confirms its `code` field is 405. -/
theorem claim4_witness :
    responseOf (DataAPIHandler none false false none 0 "GET" none) =
        (200, marshalTushareAPIResult 405 msgMethodNotAllowed) ∧
      unmarshalTushareAPIResult (marshalTushareAPIResult 405 msgMethodNotAllowed)
        = some ⟨405, msgMethodNotAllowed⟩ :=
  ⟨claim4_proxy_errors_status_200_envelope.1 none false false none 0 "GET" none
     (by decide),
   by decide⟩

/-- C7 — With caching disabled in configuration (no global cache manager),
no request computes a cache key or performs any store operation, and every
well-formed POST is forwarded to upstream — its response is the upstream
outcome regardless of any earlier identical payload. -/
theorem claim7_caching_disabled_no_store_ops :
    ∀ (gf sf : Bool) (up : Option (Bytes × Int)) (now : Int),
      (∀ (method : String) (bodyResult : Option Bytes),
        (DataAPIHandler none gf sf up now method bodyResult).computedKey = none ∧
        (DataAPIHandler none gf sf up now method bodyResult).storeGets = [] ∧
        (DataAPIHandler none gf sf up now method bodyResult).storeSets = [] ∧
        (DataAPIHandler none gf sf up now method bodyResult).storeDeletes = []) ∧
      (∀ body : Bytes,
        (DataAPIHandler none gf sf up now "POST" (some body)).upstreamCalls = 1 ∧
        responseOf (DataAPIHandler none gf sf up now "POST" (some body)) =
          (match up with
           | none => (200, marshalTushareAPIResult 500 msgForwardFailed)
           | some (resp, sc) => (sc, resp))) := by
  intro gf sf up now
  constructor
  · intro method bodyResult
    simp only [DataAPIHandler]
    repeat' split
    all_goals first | exact ⟨rfl, rfl, rfl, rfl⟩ | simp_all
  · intro body
    rcases up with _ | ⟨resp, sc⟩
    · exact ⟨by simp only [DataAPIHandler]; repeat' split; all_goals first | rfl | simp_all,
        by simp only [DataAPIHandler, responseOf]; repeat' split; all_goals first | rfl | simp_all⟩
    · exact ⟨by simp only [DataAPIHandler]; repeat' split; all_goals first | rfl | simp_all,
        by simp only [DataAPIHandler, responseOf]; repeat' split; all_goals first | rfl | simp_all⟩

theorem handler_hit (ttl : Int) (s : Store) (gf sf : Bool)
    (up : Option (Bytes × Int)) (now : Int) (body : Bytes) (e : CacheEntry)
    (s1 : Store)
    (hres : CM_Get ttl gf now s (GenerateKey body) = (.hit e, s1)) :
    DataAPIHandler (some (ttl, s)) gf sf up now "POST" (some body) =
      { baseOut s1 with
        status := e.statusCode, body := e.responseBody,
        computedKey := some (GenerateKey body),
        storeGets := [GenerateKey body], fromCache := true } := by
  simp [DataAPIHandler, hres]

theorem handler_miss_forward (ttl : Int) (s : Store) (gf sf : Bool)
    (resp : Bytes) (sc now : Int) (body : Bytes) (res : GetResult) (s1 : Store)
    (hres : CM_Get ttl gf now s (GenerateKey body) = (res, s1))
    (hmiss : res.isHit = false) :
    DataAPIHandler (some (ttl, s)) gf sf (some (resp, sc)) now "POST" (some body) =
      (if shouldCacheResponse sc resp then
        { baseOut (CM_Set ttl sf now s1 (GenerateKey body) body resp sc).2 with
          status := sc,
          body := resp, computedKey := some (GenerateKey body),
          storeGets := [GenerateKey body], storeSets := [GenerateKey body],
          storeDeletes := delsOf (GenerateKey body) res, upstreamCalls := 1 }
      else
        { baseOut s1 with
          status := sc, body := resp,
          computedKey := some (GenerateKey body),
          storeGets := [GenerateKey body],
          storeDeletes := delsOf (GenerateKey body) res, upstreamCalls := 1 }) := by
  cases res with
  | hit e => simp [GetResult.isHit] at hmiss
  | missNotFound => simp [DataAPIHandler, hres, delsOf]
  | missIOError => simp [DataAPIHandler, hres, delsOf]
  | missExpired => simp [DataAPIHandler, hres, delsOf]

theorem handler_miss_forward_fail (ttl : Int) (s : Store) (gf sf : Bool)
    (now : Int) (body : Bytes) (res : GetResult) (s1 : Store)
    (hres : CM_Get ttl gf now s (GenerateKey body) = (res, s1))
    (hmiss : res.isHit = false) :
    DataAPIHandler (some (ttl, s)) gf sf none now "POST" (some body) =
      { baseOut s1 with
        status := 200,
        body := marshalTushareAPIResult 500 msgForwardFailed,
        computedKey := some (GenerateKey body),
        storeGets := [GenerateKey body],
        storeDeletes := delsOf (GenerateKey body) res, upstreamCalls := 1 } := by
  cases res with
  | hit e => simp [GetResult.isHit] at hmiss
  | missNotFound => simp [DataAPIHandler, hres, delsOf, sendErrorResponse]
  | missIOError => simp [DataAPIHandler, hres, delsOf, sendErrorResponse]
  | missExpired => simp [DataAPIHandler, hres, delsOf, sendErrorResponse]

theorem shouldCache_iff (sc : Int) (resp : Bytes) :
    shouldCacheResponse sc resp = true ↔
      sc = 200 ∧ ∃ r, unmarshalTushareAPIResult resp = some r ∧ r.code = 0 := by
  unfold shouldCacheResponse
  by_cases h2 : sc = 200
  · subst h2
    rcases resp with _ | ⟨b, rest⟩
    · have hu : unmarshalTushareAPIResult [] = none := rfl
      simp [hu]
    · cases hu : unmarshalTushareAPIResult (b :: rest) with
      | none => simp [hu]
      | some r => simp [hu]
  · simp [h2]

/-- C2 — After a cacheable response `R` was stored under `fingerprint(P)` at
time `T`, a POST with payload `P` at any `now` within the TTL window returns
exactly `R`'s status and body, is marked served-from-cache, makes no
upstream call, and performs no store write. -/
theorem claim2_cache_hit_verbatim_no_upstream (ttl : Int) (s : Store)
    (T now : Int) (P Rbody : Bytes) (Rstatus : Int)
    (up : Option (Bytes × Int)) (sf : Bool) (hwin : now < T + ttl) :
    responseOf (DataAPIHandler
        (some (ttl, (CM_Set ttl false T s (GenerateKey P) P Rbody Rstatus).2))
        false sf up now "POST" (some P)) = (Rstatus, Rbody) ∧
    (DataAPIHandler
        (some (ttl, (CM_Set ttl false T s (GenerateKey P) P Rbody Rstatus).2))
        false sf up now "POST" (some P)).upstreamCalls = 0 ∧
    (DataAPIHandler
        (some (ttl, (CM_Set ttl false T s (GenerateKey P) P Rbody Rstatus).2))
        false sf up now "POST" (some P)).fromCache = true ∧
    (DataAPIHandler
        (some (ttl, (CM_Set ttl false T s (GenerateKey P) P Rbody Rstatus).2))
        false sf up now "POST" (some P)).storeSets = [] := by
  have h1 : ¬ (T + ttl ≤ now) := by omega
  have h2 : ¬ (now - T > ttl) := by omega
  have hget : CM_Get ttl false now
      (CM_Set ttl false T s (GenerateKey P) P Rbody Rstatus).2 (GenerateKey P) =
      (.hit { requestBody := P, responseBody := Rbody, statusCode := Rstatus,
              timestamp := T },
       (CM_Set ttl false T s (GenerateKey P) P Rbody Rstatus).2) := by
    simp [CM_Set, CM_Get, engineGet, storeLookup_insert_self, h1, h2]
  rw [handler_hit ttl _ false sf up now P _ _ hget]
  exact ⟨rfl, rfl, rfl, rfl⟩

/-- Witness for C2: payload `[]` stored at `T = 0` with `ttl = 10` and
status 200 / body `"1"`; at `now = 5` the request is served from cache with
exactly that status and body and zero upstream calls. -/
theorem claim2_witness :
    responseOf (DataAPIHandler
        (some (10, (CM_Set 10 false 0 [] (GenerateKey []) [] [0x31] 200).2))
        false false none 5 "POST" (some [])) = (200, [0x31]) ∧
    (DataAPIHandler
        (some (10, (CM_Set 10 false 0 [] (GenerateKey []) [] [0x31] 200).2))
        false false none 5 "POST" (some [])).upstreamCalls = 0 ∧
    (DataAPIHandler
        (some (10, (CM_Set 10 false 0 [] (GenerateKey []) [] [0x31] 200).2))
        false false none 5 "POST" (some [])).fromCache = true ∧
    (DataAPIHandler
        (some (10, (CM_Set 10 false 0 [] (GenerateKey []) [] [0x31] 200).2))
        false false none 5 "POST" (some [])).storeSets = [] :=
  claim2_cache_hit_verbatim_no_upstream 10 [] 0 5 [] [0x31] 200 none false
    (by decide)

/-- C1 (amended) — On the miss-then-forward path, a store write for the
request's fingerprint happens if and only if the upstream HTTP status is
exactly 200 AND the body unmarshals as the envelope AND the parsed code is
0; for any other combination no write happens and the store is left as the
get step left it; when the write happens it stores exactly the upstream
body and status under the fingerprint. -/
theorem claim1_cache_write_policy (ttl : Int) (s : Store) (gf : Bool)
    (now : Int) (body resp : Bytes) (sc : Int) (res : GetResult) (s1 : Store)
    (hres : CM_Get ttl gf now s (GenerateKey body) = (res, s1))
    (hmiss : res.isHit = false) :
    ((DataAPIHandler (some (ttl, s)) gf false (some (resp, sc)) now "POST"
        (some body)).storeSets = [GenerateKey body] ↔
      sc = 200 ∧ ∃ r, unmarshalTushareAPIResult resp = some r ∧ r.code = 0) ∧
    (¬ (sc = 200 ∧ ∃ r, unmarshalTushareAPIResult resp = some r ∧ r.code = 0) →
      (DataAPIHandler (some (ttl, s)) gf false (some (resp, sc)) now "POST"
        (some body)).storeSets = [] ∧
      (DataAPIHandler (some (ttl, s)) gf false (some (resp, sc)) now "POST"
        (some body)).store = s1) ∧
    ((sc = 200 ∧ ∃ r, unmarshalTushareAPIResult resp = some r ∧ r.code = 0) →
      storeLookup (DataAPIHandler (some (ttl, s)) gf false (some (resp, sc))
          now "POST" (some body)).store (GenerateKey body) =
        some { entry := { requestBody := body, responseBody := resp,
                          statusCode := sc, timestamp := now },
               expiresAt := now + ttl }) := by
  rw [handler_miss_forward ttl s gf false resp sc now body res s1 hres hmiss]
  by_cases hsc : shouldCacheResponse sc resp = true
  · rw [if_pos hsc]
    refine ⟨?_, ?_, ?_⟩
    · simpa using (shouldCache_iff sc resp).mp hsc
    · intro h; exact absurd ((shouldCache_iff sc resp).mp hsc) h
    · intro _
      simp [CM_Set, baseOut, storeLookup_insert_self]
  · rw [if_neg hsc]
    have hnot : ¬ (sc = 200 ∧ ∃ r, unmarshalTushareAPIResult resp = some r ∧
        r.code = 0) := fun h => hsc ((shouldCache_iff sc resp).mpr h)
    exact ⟨iff_of_false (by simp [baseOut]) hnot, fun _ => ⟨rfl, rfl⟩,
      fun h => absurd h hnot⟩

/-- Counterexample to C1 as stated: upstream status 201 is in the success
range and the body `\x7b"code":0\x7d` parses with code 0, yet the handler
writes nothing for the fingerprint (the code requires status exactly 200,
not the success range). -/
theorem claim1_counterexample :
    ((200:Int) ≤ 201 ∧ (201:Int) < 300) ∧
    unmarshalTushareAPIResult code0Body = some ⟨0, []⟩ ∧
    (DataAPIHandler (some (86400, [])) false false (some (code0Body, 201)) 0
      "POST" (some [])).storeSets = [] ∧
    (DataAPIHandler (some (86400, [])) false false (some (code0Body, 201)) 0
      "POST" (some [])).store = [] := by
  decide

/-- Witness for C1 (amended), at empty store, status 200 and body
`\x7b"code":0\x7d`: the write to the fingerprint happens and stores the
upstream body and status. -/
theorem claim1_witness :
    ((DataAPIHandler (some (86400, [])) false false (some (code0Body, 200)) 0
        "POST" (some [])).storeSets = [GenerateKey []] ↔
      (200:Int) = 200 ∧ ∃ r, unmarshalTushareAPIResult code0Body = some r ∧
        r.code = 0) ∧
    (¬ ((200:Int) = 200 ∧ ∃ r, unmarshalTushareAPIResult code0Body = some r ∧
        r.code = 0) →
      (DataAPIHandler (some (86400, [])) false false (some (code0Body, 200)) 0
        "POST" (some [])).storeSets = [] ∧
      (DataAPIHandler (some (86400, [])) false false (some (code0Body, 200)) 0
        "POST" (some [])).store = []) ∧
    (((200:Int) = 200 ∧ ∃ r, unmarshalTushareAPIResult code0Body = some r ∧
        r.code = 0) →
      storeLookup (DataAPIHandler (some (86400, [])) false false
          (some (code0Body, 200)) 0 "POST" (some [])).store (GenerateKey []) =
        some { entry := { requestBody := [], responseBody := code0Body,
                          statusCode := 200, timestamp := 0 },
               expiresAt := 0 + 86400 }) :=
  claim1_cache_write_policy 86400 [] false 0 [] code0Body 200 .missNotFound []
    rfl rfl

/-- C6 — Cache-layer faults never determine request success: a failing
store write leaves the response unchanged (first conjunct, for every
request and every other oracle), and a failing store read is treated as a
miss — the response equals that of a plain miss, the request is not served
from cache, and it still forwards to upstream (second conjunct). -/
theorem claim6_cache_faults_degrade_gracefully :
    (∀ (cache : Option (Int × Store)) (gf : Bool) (up : Option (Bytes × Int))
        (now : Int) (method : String) (bodyResult : Option Bytes),
        responseOf (DataAPIHandler cache gf true up now method bodyResult) =
          responseOf (DataAPIHandler cache gf false up now method bodyResult)) ∧
    (∀ (ttl : Int) (s : Store) (sf : Bool) (up : Option (Bytes × Int))
        (now : Int) (body : Bytes),
        responseOf (DataAPIHandler (some (ttl, s)) true sf up now "POST"
            (some body)) =
          responseOf (DataAPIHandler (some (ttl, [])) false sf up now "POST"
            (some body)) ∧
        (DataAPIHandler (some (ttl, s)) true sf up now "POST"
            (some body)).fromCache = false ∧
        (DataAPIHandler (some (ttl, s)) true sf up now "POST"
            (some body)).upstreamCalls = 1) := by
  constructor
  · intro cache gf up now method bodyResult
    simp only [DataAPIHandler, responseOf]
    repeat' split
    all_goals first | rfl | simp_all
  · intro ttl s sf up now body
    have hf : CM_Get ttl true now s (GenerateKey body) = (.missIOError, s) := rfl
    have he : CM_Get ttl false now [] (GenerateKey body) =
        (.missNotFound, []) := rfl
    refine ⟨?_, ?_, ?_⟩
    · simp only [DataAPIHandler, responseOf, hf, he]
      repeat' split
      all_goals first | rfl | simp_all
    · simp only [DataAPIHandler, hf]
      repeat' split
      all_goals first | rfl | simp_all
    · simp only [DataAPIHandler, hf]
      repeat' split
      all_goals first | rfl | simp_all

theorem applyMember_code (acc : TushareAPIResult) (k : Bytes) (v : Json)
    (hk : keyMatches k codeKey = false) (r2 : TushareAPIResult)
    (h : applyMember acc k v = some r2) : r2.code = acc.code := by
  unfold applyMember at h
  rw [hk] at h
  simp at h
  by_cases hm : keyMatches k msgKey = true
  · simp only [hm] at h
    simp at h
    cases v <;> simp_all
    rw [← h]
  · simp [hm] at h
    simp_all

theorem applyMembers_code (ms : List (Bytes × Json)) :
    ∀ (acc r : TushareAPIResult),
      (ms.all fun kv => !(keyMatches kv.1 codeKey)) = true →
      applyMembers acc ms = some r → r.code = acc.code := by
  induction ms with
  | nil =>
      intro acc r _ h
      simp only [applyMembers, Option.some.injEq] at h
      rw [← h]
  | cons kv t ih =>
      intro acc r hall h
      obtain ⟨k, v⟩ := kv
      simp only [List.all_cons, Bool.and_eq_true, Bool.not_eq_eq_eq_not,
        Bool.not_true] at hall
      obtain ⟨hk, ht⟩ := hall
      unfold applyMembers at h
      cases ha : applyMember acc k v with
      | none => rw [ha] at h; exact absurd h (by simp)
      | some acc2 =>
          rw [ha] at h
          rw [ih acc2 r ht h, applyMember_code acc k v hk acc2 ha]

theorem decode_lacks_code (v : Json) (r : TushareAPIResult)
    (hlack : jsonLacksCodeMember v = true)
    (hd : decodeTushareResult v = some r) : r.code = 0 := by
  cases v with
  | null =>
      simp only [decodeTushareResult, Option.some.injEq] at hd
      rw [← hd]
  | obj ms =>
      have hall : (ms.all fun kv => !(keyMatches kv.1 codeKey)) = true := by
        simpa [jsonLacksCodeMember] using hlack
      have hd2 : applyMembers ⟨0, []⟩ ms = some r := by
        simpa [decodeTushareResult] using hd
      simpa using applyMembers_code ms ⟨0, []⟩ r hall hd2
  | bool b => simp [jsonLacksCodeMember] at hlack
  | num neg ip hf he => simp [jsonLacksCodeMember] at hlack
  | str s => simp [jsonLacksCodeMember] at hlack
  | arr xs => simp [jsonLacksCodeMember] at hlack

/-- C9 (amended) — For an upstream response with HTTP status 200 whose body
is valid JSON with no code member — the literal `null` or an object without
a (case-insensitive) "code" member — and which decodes into the envelope
(any msg member a string), the parsed code takes the zero value 0, the
response is judged cacheable, and on the miss-then-forward path it is
written to the store exactly as if upstream had signalled `code == 0`. -/
theorem claim9_missing_code_field_cached (ttl : Int) (s : Store) (gf : Bool)
    (now : Int) (body resp : Bytes) (v : Json) (rest : Bytes)
    (r : TushareAPIResult) (res : GetResult) (s1 : Store)
    (hp : parseJson resp = some (v, rest))
    (hlack : jsonLacksCodeMember v = true)
    (hu : unmarshalTushareAPIResult resp = some r)
    (hres : CM_Get ttl gf now s (GenerateKey body) = (res, s1))
    (hmiss : res.isHit = false) :
    r.code = 0 ∧ shouldCacheResponse 200 resp = true ∧
      (DataAPIHandler (some (ttl, s)) gf false (some (resp, 200)) now "POST"
          (some body)).storeSets = [GenerateKey body] ∧
      storeLookup (DataAPIHandler (some (ttl, s)) gf false (some (resp, 200))
          now "POST" (some body)).store (GenerateKey body) =
        some { entry := { requestBody := body, responseBody := resp,
                          statusCode := 200, timestamp := now },
               expiresAt := now + ttl } := by
  have hcode : r.code = 0 := by
    have hu2 : (if skipWs rest = [] then decodeTushareResult v else none)
        = some r := by
      simpa [unmarshalTushareAPIResult, hp] using hu
    by_cases hr : skipWs rest = []
    · rw [if_pos hr] at hu2
      exact decode_lacks_code v r hlack hu2
    · rw [if_neg hr] at hu2
      exact absurd hu2 (by simp)
  have hsc : shouldCacheResponse 200 resp = true := by
    have hne : resp.length ≠ 0 := by
      intro he
      rw [List.length_eq_zero] at he
      subst he
      have hz : parseJson ([] : Bytes) = none := rfl
      rw [hz] at hp
      exact absurd hp (by simp)
    unfold shouldCacheResponse
    rw [if_pos ⟨rfl, hne⟩, hu]
    simp [hcode]
  refine ⟨hcode, hsc, ?_, ?_⟩
  · rw [handler_miss_forward ttl s gf false resp 200 now body res s1 hres hmiss,
      if_pos hsc]
  · rw [handler_miss_forward ttl s gf false resp 200 now body res s1 hres hmiss,
      if_pos hsc]
    simp [CM_Set, baseOut, storeLookup_insert_self]

/-- Counterexample to C9 as stated: the body `[]` (two bytes `0x5b 0x5d`)
is valid JSON and has no code field, upstream status is 200, yet the
response is not judged cacheable and nothing is written — `json.Unmarshal`
rejects a top-level array for a struct target. -/
theorem claim9_counterexample :
    (parseJson [0x5b, 0x5d]).isSome = true ∧
    unmarshalTushareAPIResult [0x5b, 0x5d] = none ∧
    shouldCacheResponse 200 [0x5b, 0x5d] = false ∧
    (DataAPIHandler (some (86400, [])) false false (some ([0x5b, 0x5d], 200)) 0
      "POST" (some [])).storeSets = [] ∧
    (DataAPIHandler (some (86400, [])) false false (some ([0x5b, 0x5d], 200)) 0
      "POST" (some [])).store = [] := by
  decide

/-- Witness for C9 (amended): the body `\x7b\x7d` (an empty JSON object) with
status 200 on an empty store is parsed with code 0, judged cacheable, and
written under the fingerprint of the empty payload. -/
theorem claim9_witness :
    (0 : Int) = 0 ∧ shouldCacheResponse 200 [0x7b, 0x7d] = true ∧
      (DataAPIHandler (some (86400, [])) false false (some ([0x7b, 0x7d], 200))
          0 "POST" (some [])).storeSets = [GenerateKey []] ∧
      storeLookup (DataAPIHandler (some (86400, [])) false false
          (some ([0x7b, 0x7d], 200)) 0 "POST" (some [])).store (GenerateKey []) =
        some { entry := { requestBody := [], responseBody := [0x7b, 0x7d],
                          statusCode := 200, timestamp := 0 },
               expiresAt := 0 + 86400 } :=
  claim9_missing_code_field_cached 86400 [] false 0 [] [0x7b, 0x7d]
    (Json.obj []) [] ⟨0, []⟩ .missNotFound [] rfl rfl rfl rfl rfl

end TushareProxy
